import Mathlib

/-!
Verification of the index-etfs repository: a shallow embedding of the
holdings-normalization module (polars ticker-only variant in
src/index_etfs/holdings.py) and of the pandas full-holdings variant
(index_etfs/holdings.py), together with proofs of the specified
properties of `_filter_and_clean`, `_load_direxion_csv`, `_save_holdings`,
`get_etf_holdings` and `get_spy_holdings`.
-/

namespace IndexEtfs

/-! ### Executable lexicographic order on strings

The library order on `String` is defined through byte iterators and does not
reduce in the kernel, so we use an equivalent executable comparison on the
underlying character lists (this is the order polars and pandas use to sort
a string column: lexicographic by code point) and bridge it to the library
order. -/

def charListLe : List Char → List Char → Bool
  | [], _ => true
  | _ :: _, [] => false
  | a :: as, b :: bs =>
    if a < b then true
    else if b < a then false
    else charListLe as bs

def strLe (a b : String) : Bool := charListLe a.data b.data

theorem charListLe_iff (as bs : List Char) :
    charListLe as bs = true ↔ ¬ List.Lex (· < ·) bs as := by
  induction as generalizing bs with
  | nil =>
    simp only [charListLe, true_iff]
    intro h
    cases h
  | cons a as ih =>
    cases bs with
    | nil =>
      simp only [charListLe]
      exact iff_of_false (by simp) (not_not_intro List.Lex.nil)
    | cons b bs =>
      simp only [charListLe]
      by_cases hab : a < b
      · simp only [if_pos hab, true_iff]
        intro h
        cases h with
        | cons h2 => exact absurd hab (lt_irrefl _)
        | rel h2 => exact absurd hab (asymm h2)
      · by_cases hba : b < a
        · simp only [if_neg hab, if_pos hba]
          exact iff_of_false (by simp) (not_not_intro (List.Lex.rel hba))
        · have hEq : a = b := le_antisymm (not_lt.mp hba) (not_lt.mp hab)
          subst hEq
          simp only [if_neg hab, if_neg hba]
          rw [ih bs]
          constructor
          · intro h hl
            cases hl with
            | cons h2 => exact h h2
            | rel h2 => exact absurd h2 (lt_irrefl _)
          · intro h hl
            exact h (List.Lex.cons hl)

theorem strLe_iff (a b : String) : strLe a b = true ↔ a ≤ b := by
  rw [strLe, charListLe_iff, String.le_iff_toList_le, ← not_lt]
  exact Iff.rfl

def tickerLe (a b : String) : Prop := strLe a b = true

instance : DecidableRel tickerLe :=
  fun a b => inferInstanceAs (Decidable (strLe a b = true))

instance : IsTotal String tickerLe :=
  ⟨fun a b => by
    unfold tickerLe
    rw [strLe_iff, strLe_iff]
    exact le_total a b⟩

instance : IsTrans String tickerLe :=
  ⟨fun a b c hab hbc => by
    unfold tickerLe at *
    rw [strLe_iff] at *
    exact le_trans hab hbc⟩

/-! ### Data-frame model (polars variant, src/index_etfs/holdings.py)

A data frame is a list of column names and a list of rows.  A cell is a
string, a number (weights), or null.  The polars operations used by the
module are modelled directly: column lookup by name, `filter` keeping the
rows on which the predicate holds (a null comparison never holds, as in
polars Kleene logic, where `filter` keeps only rows evaluating to true),
`select` and `sort`.  String comparisons against a numeric cell are
modelled as null, which like in polars never satisfies a filter. -/

inductive Cell where
  | str (s : String)
  | num (q : ℚ)
  | null
deriving DecidableEq

structure DF where
  cols : List String
  rows : List (List Cell)
deriving DecidableEq

def cellAt (cols : List String) (row : List Cell) (c : String) : Option Cell :=
  match cols.findIdx? (fun x => x == c) with
  | some i => row[i]?
  | none => none

/-- The value of the Ticker column in a row, when it is a (non-null) string. -/
def tickerString (cols : List String) (row : List Cell) : Option String :=
  match cellAt cols row "Ticker" with
  | some (Cell.str t) => some t
  | _ => none

/-- Row predicate of the provider-specific first filter of `_filter_and_clean`:
`(pl.col(currency_col) == "USD") & (pl.col("Ticker") != "-")`. -/
def stage1Keep (cols : List String) (cc : String) (row : List Cell) : Bool :=
  (cellAt cols row cc == some (Cell.str "USD")) &&
    (match tickerString cols row with
     | some t => t != "-"
     | none => false)

/-- Row predicate of the generic second filter of `_filter_and_clean`:
`Ticker.is_not_null() & (Ticker != "") & (Ticker != "-")`. -/
def stage2Keep (cols : List String) (row : List Cell) : Bool :=
  match tickerString cols row with
  | some t => t != "" && t != "-"
  | none => false

/-- Currency column used by `_filter_and_clean`:
`"Local Currency" if provider == "ssga" else "Market Currency"`. -/
def currencyCol (provider : String) : String :=
  if provider == "ssga" then "Local Currency" else "Market Currency"

/-- The `.filter(...).select("Ticker").sort("Ticker")` tail of
`_filter_and_clean`, as the resulting list of tickers. -/
def cleanedTickers (cols : List String) (rows : List (List Cell)) : List String :=
  List.insertionSort tickerLe
    ((rows.filter (stage2Keep cols)).filterMap (tickerString cols))

/-- Second statement of `_filter_and_clean` (null/empty/dash filter, Ticker
projection, alphabetical sort).  Referencing a missing column is a polars
`ColumnNotFoundError`, modelled as `Except.error`. -/
def finishClean (df : DF) : Except String DF :=
  if df.cols.contains "Ticker" then
    Except.ok ⟨["Ticker"], (cleanedTickers df.cols df.rows).map (fun t => [Cell.str t])⟩
  else Except.error "ColumnNotFoundError: Ticker"

/-- Model of `_filter_and_clean(df, provider)` from src/index_etfs/holdings.py. -/
def filterAndClean (df : DF) (provider : String) : Except String DF :=
  if provider == "ssga" || provider == "ishares" then
    if df.cols.contains (currencyCol provider) && df.cols.contains "Ticker" then
      finishClean ⟨df.cols, df.rows.filter (stage1Keep df.cols (currencyCol provider))⟩
    else Except.error ("ColumnNotFoundError: " ++ currencyCol provider)
  else finishClean df

/-- The Ticker column of a data frame as a list of strings
(the model of `df["Ticker"].to_list()` for a cleaned frame). -/
def outTickers (df : DF) : List String :=
  df.rows.filterMap (tickerString df.cols)

/-- Model of `_save_holdings(df, symbol)`: the list of (filename, contents)
pairs written.  The source writes a single `{symbol}.txt` file holding the
newline-joined tickers plus a trailing newline. -/
def saveHoldings (df : DF) (symbol : String) : List (String × String) :=
  [(symbol ++ ".txt", String.intercalate "\n" (outTickers df) ++ "\n")]

/-! ### Direxion CSV loader (`_load_direxion_csv`)

The loader is modelled on the already-fetched raw CSV, a list of rows of
string fields.  `pl.read_csv(url, skip_rows=5, truncate_ragged_lines=True)`
drops the first five lines, takes the next line as the header, and pads or
truncates every later line to the header width.  The three rename steps of
the source then map either export-era column set to the canonical names,
raising (modelled as `Except.error`) when a role has no recognised column. -/

def isErr {ε α : Type} (e : Except ε α) : Bool :=
  match e with
  | Except.error _ => true
  | Except.ok _ => false

/-- Ticker-role step of the rename-map construction in `_load_direxion_csv`. -/
def direxionTickerMap (cols : List String) : Except String (List (String × String)) :=
  if cols.contains "StockTicker" then Except.ok [("StockTicker", "Ticker")]
  else if !(cols.contains "Ticker") then
    Except.error "No ticker column found in Direxion CSV"
  else Except.ok []

/-- Name-role step of the rename-map construction in `_load_direxion_csv`. -/
def direxionNameMap (cols : List String) : Except String (List (String × String)) :=
  if cols.contains "SecurityDescription" then Except.ok [("SecurityDescription", "Name")]
  else if cols.contains "Description" then Except.ok [("Description", "Name")]
  else if !(cols.contains "Name") then
    Except.error "No name/description column found in Direxion CSV"
  else Except.ok []

/-- Weight-role step of the rename-map construction in `_load_direxion_csv`. -/
def direxionWeightMap (cols : List String) : Except String (List (String × String)) :=
  if cols.contains "HoldingsPercent" then Except.ok [("HoldingsPercent", "Weight")]
  else if cols.contains "% of Net Assets" then Except.ok [("% of Net Assets", "Weight")]
  else if !(cols.contains "Weight") then
    Except.error "No weight column found in Direxion CSV"
  else Except.ok []

/-- The column-renaming part of `_load_direxion_csv`, applied to the header. -/
def direxionRename (cols : List String) : Except String (List String) := do
  let tm ← direxionTickerMap cols
  let nm ← direxionNameMap cols
  let wm ← direxionWeightMap cols
  let renameMap := tm ++ nm ++ wm
  pure (cols.map (fun c => ((renameMap.lookup c).getD c)))

/-- Ragged-line handling of `read_csv(..., truncate_ragged_lines=True)`:
each data line is truncated or null-padded to the header width. -/
def padTruncate (n : Nat) (row : List String) : List Cell :=
  (List.range n).map (fun i =>
    match row[i]? with
    | some s => Cell.str s
    | none => Cell.null)

/-- Model of `pl.read_csv` with a fixed number of skipped leading rows.
Reading an input with no line left is a polars `NoDataError`. -/
def readCsvSkip (skipRows : Nat) (raw : List (List String)) : Except String DF :=
  match raw.drop skipRows with
  | [] => Except.error "NoDataError: empty CSV"
  | header :: data => Except.ok ⟨header, data.map (padTruncate header.length)⟩

/-- Model of `_load_direxion_csv`: the source calls
`pl.read_csv(url, skip_rows=5, truncate_ragged_lines=True)` and then renames
the era-specific columns.  The skip of 5 rows is unconditional. -/
def loadDirexionCsv (raw : List (List String)) : Except String DF := do
  let df ← readCsvSkip 5 raw
  let newCols ← direxionRename df.cols
  pure ⟨newCols, df.rows⟩

/-- Modelled from the spec: the claimed behaviour of the Direxion loader on a
current-era input, which according to the spec is read without the 5-row
metadata skip.  This definition exists only to be compared with
`loadDirexionCsv`, which the source defines with an unconditional skip. -/
def loadDirexionCsvNoSkipSpec (raw : List (List String)) : Except String DF := do
  let df ← readCsvSkip 0 raw
  let newCols ← direxionRename df.cols
  pure ⟨newCols, df.rows⟩

/-! ### Registry and orchestrator (`ETF_CONFIGS`, `get_etf_holdings`)

The loaders fetch over the network, so the orchestrator is parametrised by
one abstract loader function per provider; everything else follows the
source.  Python `symbol.lower()` is modelled by an executable per-character
lowering. -/

structure EtfConfig where
  url : String
  provider : String
deriving DecidableEq

def spyUrl : String :=
  "https://www.ssga.com/us/en/individual/library-content/products/fund-data/etfs/us/holdings-daily-us-en-spy.xlsx"

def mdyUrl : String :=
  "https://www.ssga.com/us/en/individual/library-content/products/fund-data/etfs/us/holdings-daily-us-en-mdy.xlsx"

def spsmUrl : String :=
  "https://www.ssga.com/us/en/individual/library-content/products/fund-data/etfs/us/holdings-daily-us-en-spsm.xlsx"

def qqqUrl : String := "https://www.direxion.com/holdings/QQQE.csv"

def iwmUrl : String :=
  "https://www.ishares.com/us/products/239710/ishares-russell-2000-etf/1467271812596.ajax?fileType=csv&fileName=IWM_holdings&dataType=fund"

/-- Model of the static `ETF_CONFIGS` dictionary (insertion order preserved). -/
def ETF_CONFIGS : List (String × EtfConfig) :=
  [("spy", ⟨spyUrl, "ssga"⟩),
   ("mdy", ⟨mdyUrl, "ssga"⟩),
   ("spsm", ⟨spsmUrl, "ssga"⟩),
   ("qqq", ⟨qqqUrl, "direxion"⟩),
   ("iwm", ⟨iwmUrl, "ishares"⟩)]

/-- Executable model of Python `str.lower()` for the ASCII symbols used here. -/
def strToLower (s : String) : String := ⟨s.data.map Char.toLower⟩

/-- The `ValueError` message raised by `get_etf_holdings` on an unknown
symbol, enumerating the registry keys. -/
def unknownSymbolMsg (symbol : String) : String :=
  "Unknown ETF symbol: " ++ symbol ++ ". Valid symbols: " ++
    String.intercalate ", " (ETF_CONFIGS.map Prod.fst)

/-- The provider dispatch of `get_etf_holdings` (if/elif chain with a final
`Unknown provider` error branch). -/
def dispatchLoad (provider url : String)
    (loadSsga loadIshares loadDirexion : String → DF) : Except String DF :=
  if provider == "ssga" then Except.ok (loadSsga url)
  else if provider == "ishares" then Except.ok (loadIshares url)
  else if provider == "direxion" then Except.ok (loadDirexion url)
  else Except.error ("Unknown provider: " ++ provider)

/-- Model of `get_etf_holdings(symbol)`: resolve the lowercased symbol in the
registry, dispatch to a loader, normalize, and save.  The result pairs the
returned frame with the file writes performed; an error carries no writes. -/
def getEtfHoldings (symbol : String)
    (loadSsga loadIshares loadDirexion : String → DF) :
    Except String (DF × List (String × String)) :=
  let symbolLower := strToLower symbol
  match ETF_CONFIGS.lookup symbolLower with
  | none => Except.error (unknownSymbolMsg symbol)
  | some config =>
    match dispatchLoad config.provider config.url loadSsga loadIshares loadDirexion with
    | Except.error e => Except.error e
    | Except.ok df =>
      match filterAndClean df config.provider with
      | Except.error e => Except.error e
      | Except.ok cleaned => Except.ok (cleaned, saveHoldings cleaned symbolLower)

/-! ### Full-holdings variant (`get_spy_holdings` in index_etfs/holdings.py)

The pandas variant reads the SSGA sheet into rows with Ticker, Name, Weight
and Local Currency, filters to USD and non-dash tickers, projects to the
canonical columns and calls `sort_values(by="Ticker")`.  Weights are exact
rationals in the model. -/

structure SsgaRow where
  ticker : String
  name : String
  weight : ℚ
  localCurrency : String
deriving DecidableEq

structure HoldingRow where
  ticker : String
  name : String
  weight : ℚ
deriving DecidableEq

def holdingLe (a b : HoldingRow) : Prop := tickerLe a.ticker b.ticker

instance : DecidableRel holdingLe :=
  fun a b => inferInstanceAs (Decidable (strLe a.ticker b.ticker = true))

instance : IsTotal HoldingRow holdingLe :=
  ⟨fun a b => IsTotal.total (r := tickerLe) a.ticker b.ticker⟩

instance : IsTrans HoldingRow holdingLe :=
  ⟨fun _ _ _ hab hbc => Trans.trans (r := tickerLe) (s := tickerLe) hab hbc⟩

/-- Model of the normalization performed by `get_spy_holdings`:
`df[df["Local Currency"] == "USD"]`, then `df[df["Ticker"] != "-"]`, then
`df[["Ticker", "Name", "Weight"]].sort_values(by="Ticker")`. -/
def getSpyHoldingsClean (rows : List SsgaRow) : List HoldingRow :=
  let usdRows := rows.filter (fun r => r.localCurrency == "USD")
  let realRows := usdRows.filter (fun r => r.ticker != "-")
  let projected := realRows.map (fun r => HoldingRow.mk r.ticker r.name r.weight)
  List.insertionSort holdingLe projected

/-! ### Helper lemmas about `_filter_and_clean` -/

theorem finishClean_ok {df out : DF} (h : finishClean df = Except.ok out) :
    out = ⟨["Ticker"], (cleanedTickers df.cols df.rows).map (fun t => [Cell.str t])⟩ := by
  unfold finishClean at h
  split at h
  · exact (Except.ok.inj h).symm
  · exact absurd h (by simp)

theorem filterAndClean_shape {df : DF} {provider : String} {out : DF}
    (h : filterAndClean df provider = Except.ok out) :
    ∃ cols rows, out = ⟨["Ticker"], (cleanedTickers cols rows).map (fun t => [Cell.str t])⟩ := by
  unfold filterAndClean at h
  split at h
  · split at h
    · exact ⟨_, _, finishClean_ok h⟩
    · exact absurd h (by simp)
  · exact ⟨_, _, finishClean_ok h⟩

theorem outTickers_mk (ts : List String) :
    outTickers ⟨["Ticker"], ts.map (fun t => [Cell.str t])⟩ = ts := by
  unfold outTickers
  induction ts with
  | nil => rfl
  | cons t ts ih =>
    rw [List.map_cons, List.filterMap_cons]
    have hstep : tickerString ["Ticker"] [Cell.str t] = some t := rfl
    rw [hstep]
    exact congrArg (t :: ·) ih

theorem mem_cleanedTickers {cols : List String} {rows : List (List Cell)} {t : String}
    (ht : t ∈ cleanedTickers cols rows) : t ≠ "" ∧ t ≠ "-" := by
  unfold cleanedTickers at ht
  have ht2 := (List.perm_insertionSort tickerLe _).mem_iff.mp ht
  obtain ⟨r, hr, hrt⟩ := List.mem_filterMap.mp ht2
  have h2 := (List.mem_filter.mp hr).2
  unfold stage2Keep at h2
  rw [hrt] at h2
  simp only [Bool.and_eq_true, bne_iff_ne, ne_eq] at h2
  exact h2

theorem sorted_cleanedTickers (cols : List String) (rows : List (List Cell)) :
    List.Sorted (· ≤ ·) (cleanedTickers cols rows) := by
  unfold cleanedTickers
  exact (List.sorted_insertionSort tickerLe _).imp (fun hab => (strLe_iff _ _).mp hab)

/-! ### Concrete tables used to instantiate the theorems -/

def dfSample : DF :=
  ⟨["Ticker", "Name", "Weight", "Local Currency", "Market Currency"],
   [[Cell.str "MSFT", Cell.str "Microsoft", Cell.num 6.2, Cell.str "USD", Cell.str "GBP"],
    [Cell.str "AAPL", Cell.str "Apple Inc", Cell.num 7.5, Cell.str "USD", Cell.str "USD"],
    [Cell.str "-", Cell.str "Cash", Cell.num 0.5, Cell.str "USD", Cell.str "USD"],
    [Cell.str "NVDA", Cell.str "NVIDIA", Cell.num 3.8, Cell.str "EUR", Cell.str "EUR"],
    [Cell.null, Cell.str "Mystery", Cell.null, Cell.str "USD", Cell.str "USD"]]⟩

def dfSampleSsgaOut : DF := ⟨["Ticker"], [[Cell.str "AAPL"], [Cell.str "MSFT"]]⟩

def dfSampleIsharesOut : DF := ⟨["Ticker"], [[Cell.str "AAPL"]]⟩

def dfSampleDirexionOut : DF :=
  ⟨["Ticker"], [[Cell.str "AAPL"], [Cell.str "MSFT"], [Cell.str "NVDA"]]⟩

def dfEmptySsga : DF := ⟨["Ticker", "Name", "Weight", "Local Currency"], []⟩

/-! ### C1 -/

/-- C1: for every input table and every provider tag, the table returned by
`_filter_and_clean` contains no row whose Ticker is the string "-", the empty
string, or null: every output row is a single non-null string cell different
from "-" and from "". -/
theorem filter_and_clean_ticker_invariant (df : DF) (provider : String) (out : DF)
    (h : filterAndClean df provider = Except.ok out) :
    ∀ row ∈ out.rows, ∃ t, row = [Cell.str t] ∧ t ≠ "-" ∧ t ≠ "" := by
  obtain ⟨cols, rows, rfl⟩ := filterAndClean_shape h
  intro row hrow
  obtain ⟨t, ht, hteq⟩ := List.mem_map.mp hrow
  obtain ⟨h1, h2⟩ := mem_cleanedTickers ht
  exact ⟨t, hteq.symm, h2, h1⟩

/-- Witness for C1 at a concrete ssga table containing a dash ticker, a null
ticker and a non-USD row. -/
theorem filter_and_clean_ticker_invariant_witness :
    ∃ t, ([Cell.str "AAPL"] : List Cell) = [Cell.str t] ∧ t ≠ "-" ∧ t ≠ "" :=
  filter_and_clean_ticker_invariant dfSample "ssga" dfSampleSsgaOut rfl
    [Cell.str "AAPL"] (by decide)

/-! ### C3 -/

/-- C3: for every input table and every provider tag, `_filter_and_clean`
returns its rows sorted non-decreasing (alphabetically ascending) by
Ticker. -/
theorem filter_and_clean_sorted_ascending (df : DF) (provider : String) (out : DF)
    (h : filterAndClean df provider = Except.ok out) :
    List.Sorted (· ≤ ·) (outTickers out) := by
  obtain ⟨cols, rows, rfl⟩ := filterAndClean_shape h
  rw [outTickers_mk]
  exact sorted_cleanedTickers cols rows

/-- Witness for C3 at a concrete unsorted ishares table. -/
theorem filter_and_clean_sorted_ascending_witness :
    List.Sorted (· ≤ ·) (outTickers dfSampleIsharesOut) :=
  filter_and_clean_sorted_ascending dfSample "ishares" dfSampleIsharesOut rfl

/-! ### C9 -/

/-- C9: for every input table, including one with zero rows, the column set
of the table returned by `_filter_and_clean` is exactly the singleton
Ticker: the schema survives zero rows. -/
theorem filter_and_clean_schema (df : DF) (provider : String) (out : DF)
    (h : filterAndClean df provider = Except.ok out) :
    out.cols = ["Ticker"] := by
  obtain ⟨cols, rows, rfl⟩ := filterAndClean_shape h
  rfl

/-- Witness for C9 at a zero-row ssga table. -/
theorem filter_and_clean_schema_witness :
    (⟨["Ticker"], []⟩ : DF).cols = ["Ticker"] :=
  filter_and_clean_schema dfEmptySsga "ssga" ⟨["Ticker"], []⟩ rfl

/-! ### C2 -/

theorem stageKeep_comm (cols : List String) (cc : String) (r : List Cell) :
    (stage2Keep cols r && stage1Keep cols cc r) =
    ((cellAt cols r cc == some (Cell.str "USD")) && stage2Keep cols r) := by
  unfold stage1Keep stage2Keep
  cases htk : tickerString cols r with
  | none => simp
  | some t =>
    cases hX : (cellAt cols r cc == some (Cell.str "USD")) <;>
      cases h1 : (t != "") <;> cases h2 : (t != "-") <;> simp [h1, h2]

theorem cleanedTickers_filter (cols : List String) (cc : String)
    (rows : List (List Cell)) :
    cleanedTickers cols (rows.filter (stage1Keep cols cc)) =
    List.insertionSort tickerLe ((rows.filter (fun r =>
      (cellAt cols r cc == some (Cell.str "USD")) &&
        stage2Keep cols r)).filterMap (tickerString cols)) := by
  unfold cleanedTickers
  rw [List.filter_filter]
  have hpred : (fun r => stage2Keep cols r && stage1Keep cols cc r) =
      (fun r => (cellAt cols r cc == some (Cell.str "USD")) && stage2Keep cols r) :=
    funext (fun r => stageKeep_comm cols cc r)
  rw [hpred]

/-- C2: for every input table, `_filter_and_clean` with provider ssga keeps
(up to the final sort, hence as a permutation) exactly the valid-ticker rows
whose Local Currency is "USD"; with provider ishares exactly the
valid-ticker rows whose Market Currency is "USD"; and with provider direxion
it applies no currency filter: every valid-ticker row passes regardless of
any currency field. -/
theorem filter_and_clean_currency_rule (df : DF) :
    (∀ out, filterAndClean df "ssga" = Except.ok out →
      (outTickers out).Perm ((df.rows.filter (fun r =>
        (cellAt df.cols r "Local Currency" == some (Cell.str "USD")) &&
          stage2Keep df.cols r)).filterMap (tickerString df.cols)))
  ∧ (∀ out, filterAndClean df "ishares" = Except.ok out →
      (outTickers out).Perm ((df.rows.filter (fun r =>
        (cellAt df.cols r "Market Currency" == some (Cell.str "USD")) &&
          stage2Keep df.cols r)).filterMap (tickerString df.cols)))
  ∧ (∀ out, filterAndClean df "direxion" = Except.ok out →
      (outTickers out).Perm
        ((df.rows.filter (stage2Keep df.cols)).filterMap (tickerString df.cols))) := by
  refine ⟨?_, ?_, ?_⟩
  · intro out h
    rw [show filterAndClean df "ssga" =
        (if df.cols.contains "Local Currency" && df.cols.contains "Ticker" then
          finishClean ⟨df.cols, df.rows.filter (stage1Keep df.cols "Local Currency")⟩
        else Except.error ("ColumnNotFoundError: " ++ "Local Currency")) from rfl] at h
    split at h
    · rw [finishClean_ok h, outTickers_mk]
      show (cleanedTickers df.cols
        (df.rows.filter (stage1Keep df.cols "Local Currency"))).Perm _
      rw [cleanedTickers_filter]
      exact List.perm_insertionSort tickerLe _
    · exact absurd h (by simp)
  · intro out h
    rw [show filterAndClean df "ishares" =
        (if df.cols.contains "Market Currency" && df.cols.contains "Ticker" then
          finishClean ⟨df.cols, df.rows.filter (stage1Keep df.cols "Market Currency")⟩
        else Except.error ("ColumnNotFoundError: " ++ "Market Currency")) from rfl] at h
    split at h
    · rw [finishClean_ok h, outTickers_mk]
      show (cleanedTickers df.cols
        (df.rows.filter (stage1Keep df.cols "Market Currency"))).Perm _
      rw [cleanedTickers_filter]
      exact List.perm_insertionSort tickerLe _
    · exact absurd h (by simp)
  · intro out h
    rw [show filterAndClean df "direxion" = finishClean df from rfl] at h
    rw [finishClean_ok h, outTickers_mk]
    unfold cleanedTickers
    exact List.perm_insertionSort tickerLe _

/-- Witness for C2 at a concrete table with mixed currencies, evaluating all
three provider branches. -/
theorem filter_and_clean_currency_rule_witness :
    ((outTickers dfSampleSsgaOut).Perm ((dfSample.rows.filter (fun r =>
        (cellAt dfSample.cols r "Local Currency" == some (Cell.str "USD")) &&
          stage2Keep dfSample.cols r)).filterMap (tickerString dfSample.cols)))
  ∧ ((outTickers dfSampleIsharesOut).Perm ((dfSample.rows.filter (fun r =>
        (cellAt dfSample.cols r "Market Currency" == some (Cell.str "USD")) &&
          stage2Keep dfSample.cols r)).filterMap (tickerString dfSample.cols)))
  ∧ ((outTickers dfSampleDirexionOut).Perm
        ((dfSample.rows.filter (stage2Keep dfSample.cols)).filterMap
          (tickerString dfSample.cols))) :=
  ⟨(filter_and_clean_currency_rule dfSample).1 dfSampleSsgaOut rfl,
   (filter_and_clean_currency_rule dfSample).2.1 dfSampleIsharesOut rfl,
   (filter_and_clean_currency_rule dfSample).2.2 dfSampleDirexionOut rfl⟩

/-! ### C4 -/

theorem direxionTickerMap_err (cols : List String) :
    isErr (direxionTickerMap cols) =
      (!(cols.contains "StockTicker") && !(cols.contains "Ticker")) := by
  by_cases h1 : "StockTicker" ∈ cols <;> by_cases h2 : "Ticker" ∈ cols <;>
    simp [direxionTickerMap, isErr, h1, h2]

theorem direxionNameMap_err (cols : List String) :
    isErr (direxionNameMap cols) =
      (!(cols.contains "SecurityDescription") && !(cols.contains "Description") &&
        !(cols.contains "Name")) := by
  by_cases h1 : "SecurityDescription" ∈ cols <;>
    by_cases h2 : "Description" ∈ cols <;> by_cases h3 : "Name" ∈ cols <;>
    simp [direxionNameMap, isErr, h1, h2, h3]

theorem direxionWeightMap_err (cols : List String) :
    isErr (direxionWeightMap cols) =
      (!(cols.contains "HoldingsPercent") && !(cols.contains "% of Net Assets") &&
        !(cols.contains "Weight")) := by
  by_cases h1 : "HoldingsPercent" ∈ cols <;>
    by_cases h2 : "% of Net Assets" ∈ cols <;> by_cases h3 : "Weight" ∈ cols <;>
    simp [direxionWeightMap, isErr, h1, h2, h3]

theorem direxionRename_err (cols : List String) :
    isErr (direxionRename cols) =
      (isErr (direxionTickerMap cols) || isErr (direxionNameMap cols) ||
        isErr (direxionWeightMap cols)) := by
  cases ht : direxionTickerMap cols <;> cases hn : direxionNameMap cols <;>
    cases hw : direxionWeightMap cols <;>
    simp [direxionRename, ht, hn, hw, isErr, Bind.bind, Except.bind, pure, Except.pure]

/-- C4: the Direxion loader maps both export eras to the canonical column
names Ticker, Name, Weight, and raises (modelled as an error) exactly when
one of the three roles has neither the current-era nor the legacy-era nor
the canonical column present; in particular an input with only StockTicker
raises. -/
theorem direxion_rename_era_spec :
    direxionRename ["Ticker", "Description", "% of Net Assets"] =
      Except.ok ["Ticker", "Name", "Weight"]
  ∧ direxionRename ["StockTicker", "SecurityDescription", "HoldingsPercent"] =
      Except.ok ["Ticker", "Name", "Weight"]
  ∧ (∀ cols : List String, isErr (direxionRename cols) = true ↔
      ((cols.contains "StockTicker" = false ∧ cols.contains "Ticker" = false)
        ∨ (cols.contains "SecurityDescription" = false ∧
            cols.contains "Description" = false ∧ cols.contains "Name" = false)
        ∨ (cols.contains "HoldingsPercent" = false ∧
            cols.contains "% of Net Assets" = false ∧
            cols.contains "Weight" = false)))
  ∧ isErr (direxionRename ["StockTicker"]) = true := by
  refine ⟨rfl, rfl, ?_, rfl⟩
  intro cols
  rw [direxionRename_err, direxionTickerMap_err, direxionNameMap_err,
    direxionWeightMap_err]
  simp only [Bool.or_eq_true, Bool.and_eq_true, Bool.not_eq_true']
  tauto

/-! ### C6 -/

/-- A current-era Direxion export whose header is the first line. -/
def direxionCurrentEraRaw : List (List String) :=
  [["Ticker", "Description", "% of Net Assets"],
   ["AAPL", "Apple Inc", "7.5"],
   ["MSFT", "Microsoft", "6.2"]]

/-- C6 (counterexample): the claim says the 5-row metadata skip applies only
to older-era inputs and that current-era inputs are read without it.  On a
current-era input whose header is the very first line, the loader still
drops five lines and fails, while the spec-described no-skip read succeeds;
so the skip is not conditional on the era. -/
theorem direxion_skip_counterexample :
    loadDirexionCsv direxionCurrentEraRaw = Except.error "NoDataError: empty CSV"
  ∧ loadDirexionCsvNoSkipSpec direxionCurrentEraRaw =
      Except.ok ⟨["Ticker", "Name", "Weight"],
        [[Cell.str "AAPL", Cell.str "Apple Inc", Cell.str "7.5"],
         [Cell.str "MSFT", Cell.str "Microsoft", Cell.str "6.2"]]⟩ :=
  ⟨rfl, rfl⟩

/-- C6 (amended): the Direxion loader applies the fixed 5-row metadata skip
unconditionally: on any input it behaves exactly like the no-skip read of
the input with its first five lines removed, whichever era those lines and
the remaining lines belong to. -/
theorem direxion_skip_unconditional (pre raw : List (List String))
    (h : pre.length = 5) :
    loadDirexionCsv (pre ++ raw) = loadDirexionCsvNoSkipSpec raw := by
  unfold loadDirexionCsv loadDirexionCsvNoSkipSpec readCsvSkip
  rw [← h, List.drop_left, List.drop_zero]

/-- Five metadata lines as they precede an older-era Direxion header. -/
def direxionMetaRows : List (List String) :=
  [["Fund Holdings"], ["Direxion NASDAQ-100 Equal Weighted Index Shares"],
   ["As of 10/10/2025"], [""], [""]]

/-- An older-era Direxion export body (header plus one data line). -/
def direxionLegacyRaw : List (List String) :=
  [["StockTicker", "SecurityDescription", "HoldingsPercent"],
   ["AAPL", "Apple Inc", "1.2"]]

/-- Witness for the amended C6 theorem at a concrete older-era input. -/
theorem direxion_skip_unconditional_witness :
    loadDirexionCsv (direxionMetaRows ++ direxionLegacyRaw) =
      loadDirexionCsvNoSkipSpec direxionLegacyRaw :=
  direxion_skip_unconditional direxionMetaRows direxionLegacyRaw rfl

/-! ### C5 -/

/-- C5: `get_etf_holdings` resolves the lowercased symbol, so an uppercase
and a lowercase spelling behave identically for every choice of loaders; on
a symbol absent from the registry it returns the UnknownSymbol error before
invoking any loader and with no file writes (the error result carries none),
and the message enumerates the valid symbols. -/
theorem get_etf_holdings_resolution :
    (∀ loadSsga loadIshares loadDirexion,
      getEtfHoldings "SPY" loadSsga loadIshares loadDirexion =
        getEtfHoldings "spy" loadSsga loadIshares loadDirexion)
  ∧ ETF_CONFIGS.lookup (strToLower "SPY") = ETF_CONFIGS.lookup (strToLower "spy")
  ∧ (∀ loadSsga loadIshares loadDirexion,
      getEtfHoldings "ZZZZ" loadSsga loadIshares loadDirexion =
        Except.error (unknownSymbolMsg "ZZZZ"))
  ∧ unknownSymbolMsg "ZZZZ" =
      "Unknown ETF symbol: ZZZZ. Valid symbols: spy, mdy, spsm, qqq, iwm" :=
  ⟨fun _ _ _ => rfl, rfl, fun _ _ _ => rfl, rfl⟩

/-! ### C10 -/

/-- C10: every symbol registered in `ETF_CONFIGS` carries one of the three
known provider tags, so the final Unknown-provider branch of the dispatch in
`get_etf_holdings` is unreachable for registered symbols. -/
theorem registered_provider_known (s : String) (c : EtfConfig)
    (h : (s, c) ∈ ETF_CONFIGS) :
    (c.provider = "ssga" ∨ c.provider = "ishares" ∨ c.provider = "direxion")
  ∧ (∀ url loadSsga loadIshares loadDirexion,
      isErr (dispatchLoad c.provider url loadSsga loadIshares loadDirexion) =
        false) := by
  simp only [ETF_CONFIGS, List.mem_cons, List.not_mem_nil, or_false,
    Prod.mk.injEq] at h
  rcases h with ⟨-, rfl⟩ | ⟨-, rfl⟩ | ⟨-, rfl⟩ | ⟨-, rfl⟩ | ⟨-, rfl⟩ <;>
    exact ⟨by simp, fun _ _ _ _ => rfl⟩

/-- Witness for C10 at the spy registry entry. -/
theorem registered_provider_known_witness :
    ((⟨spyUrl, "ssga"⟩ : EtfConfig).provider = "ssga" ∨
      (⟨spyUrl, "ssga"⟩ : EtfConfig).provider = "ishares" ∨
      (⟨spyUrl, "ssga"⟩ : EtfConfig).provider = "direxion")
  ∧ isErr (dispatchLoad (⟨spyUrl, "ssga"⟩ : EtfConfig).provider spyUrl
      (fun _ => dfSample) (fun _ => dfSample) (fun _ => dfSample)) = false :=
  ⟨(registered_provider_known "spy" ⟨spyUrl, "ssga"⟩ (by decide)).1,
   (registered_provider_known "spy" ⟨spyUrl, "ssga"⟩ (by decide)).2 spyUrl
     (fun _ => dfSample) (fun _ => dfSample) (fun _ => dfSample)⟩

/-! ### C7 -/

/-- The scenario table of the spec (the Name column, absent from the
scenario dictionary, is filled with the names of the matching test
fixture). -/
def ssgaSampleRows : List SsgaRow :=
  [⟨"AAPL", "Apple Inc", 7.5, "USD"⟩,
   ⟨"MSFT", "Microsoft", 6.2, "USD"⟩,
   ⟨"GOOGL", "Alphabet", 4.1, "USD"⟩,
   ⟨"-", "Cash", 0.5, "USD"⟩,
   ⟨"NVDA", "NVIDIA", 3.8, "EUR"⟩]

/-- C7 (counterexample): the claim says the full-holdings normalization is
sorted by Weight descending, with the scenario yielding the order AAPL,
MSFT, GOOGL.  The code sorts by Ticker: the scenario yields AAPL, GOOGL,
MSFT, which is not the claimed order and not weight-descending. -/
theorem spy_weight_order_counterexample :
    ¬ ((getSpyHoldingsClean ssgaSampleRows).map HoldingRow.ticker =
        ["AAPL", "MSFT", "GOOGL"])
  ∧ ¬ List.Sorted (fun a b : HoldingRow => b.weight ≤ a.weight)
      (getSpyHoldingsClean ssgaSampleRows) := by
  constructor
  · intro h
    rw [show (getSpyHoldingsClean ssgaSampleRows).map HoldingRow.ticker =
        ["AAPL", "GOOGL", "MSFT"] from rfl] at h
    simp at h
  · intro h
    rw [show getSpyHoldingsClean ssgaSampleRows =
        [⟨"AAPL", "Apple Inc", 7.5⟩, ⟨"GOOGL", "Alphabet", 4.1⟩,
         ⟨"MSFT", "Microsoft", 6.2⟩] from rfl] at h
    simp only [List.sorted_cons, List.mem_cons] at h
    have hbad := h.2.1 ⟨"MSFT", "Microsoft", 6.2⟩ (by simp)
    norm_num at hbad

/-- C7 (amended): in the full-holdings variant the normalized table is
sorted by Ticker ascending; the scenario input yields exactly the three rows
AAPL(7.5), GOOGL(4.1), MSFT(6.2), with the NVDA row dropped for non-USD
currency and the dash row dropped. -/
theorem spy_sorted_by_ticker :
    (∀ rows, List.Sorted (fun a b : HoldingRow => a.ticker ≤ b.ticker)
      (getSpyHoldingsClean rows))
  ∧ getSpyHoldingsClean ssgaSampleRows =
      [⟨"AAPL", "Apple Inc", 7.5⟩, ⟨"GOOGL", "Alphabet", 4.1⟩,
       ⟨"MSFT", "Microsoft", 6.2⟩] := by
  constructor
  · intro rows
    exact (List.sorted_insertionSort holdingLe _).imp
      (fun hab => (strLe_iff _ _).mp hab)
  · rfl

/-! ### C8 -/

/-- A normalized ticker-only table as produced by `_filter_and_clean`. -/
def cleanedSample : DF :=
  ⟨["Ticker"], [[Cell.str "AAPL"], [Cell.str "GOOGL"], [Cell.str "MSFT"]]⟩

/-- C8 (code behaviour at the failing input): `_save_holdings` writes a
single newline-joined `{symbol}.txt` file; it writes no `{symbol}.csv` at
all, hence no Rank column, contradicting the round-trip claim and the
tests of the repository, which assert that a csv with a Rank column is
written. -/
theorem save_holdings_txt_only :
    saveHoldings cleanedSample "test" = [("test.txt", "AAPL\nGOOGL\nMSFT\n")]
  ∧ ((saveHoldings cleanedSample "test").map Prod.fst).contains "test.csv" =
      false :=
  ⟨rfl, rfl⟩

end IndexEtfs
